import Mathlib

/-!
Verification of the `loggers` package: a shallow embedding of
`loggers/json_log_parser.py` (class `JSONLogParser`) and
`loggers/handler_controller.py` (class `HandlerController`), with theorems
checking the specified behaviour of loading, normalization, filtering,
extraction, aggregation, and the handler registry.

Modelling conventions:
* JSON values are modelled to the depth the log schema uses: scalars, and
  one level of arrays/objects whose members are scalars (`JScalar`, `JVal`);
  a parsed log line (the result of `json.loads`) is a `JDoc`.
* `datetime` timestamps are modelled as integers; `datetime.fromisoformat`
  is modelled by integer-numeral parsing (`fromisoformat`), so a parsable
  timestamp string is an integer numeral and comparison of datetimes is
  integer comparison.  `str.replace("Z", "+00:00")` is modelled by
  `replaceZ` (the pattern is the single character `Z`).
* Python exceptions are modelled by the `PyErr` type; a mutating method
  that can raise is modelled as a function returning the updated state
  paired with `Option PyErr` (the state at the moment of the raise is
  kept, matching in-place mutation of `self`).
* Python dictionaries are modelled as association lists with unique keys,
  insertion at the end, and `List.lookup`; `collections.Counter` is
  modelled by an association list from key to count (`incr` models
  `counter[k] += 1`, inserting new keys at the end, which is dict order).
-/

deriving instance DecidableEq for Except

/-- A scalar JSON value. -/
inductive JScalar where
  | snull
  | sbool (b : Bool)
  | snum (n : Int)
  | sstr (s : String)
deriving Repr, DecidableEq

/-- A JSON value as it appears as a field of a log line: a scalar, or one
level of array/object with scalar members. -/
inductive JVal where
  | scalar (v : JScalar)
  | arr (elems : List JScalar)
  | obj (entries : List (String × JScalar))
deriving Repr, DecidableEq

/-- The result of `json.loads` on one log line: a scalar, or a top-level
array/object whose members are `JVal`s. -/
inductive JDoc where
  | scalar (v : JScalar)
  | arr (elems : List JVal)
  | obj (entries : List (String × JVal))
deriving Repr, DecidableEq

/-- Python exceptions raised by the code paths modelled here. -/
inductive PyErr where
  | valueError
  | keyError (key : String)
  | attributeError (attr : String)
  | typeError
  | jsonDecodeError
deriving Repr, DecidableEq

/-- The numeric value of a digit character. -/
def digitVal (c : Char) : Option Nat :=
  if c.isDigit then some (c.toNat - 48) else none

/-- Parse a nonempty run of digit characters as a natural number. -/
def parseNatAux : List Char → Nat → Option Nat
  | [], acc => some acc
  | c :: cs, acc =>
    match digitVal c with
    | some d => parseNatAux cs (acc * 10 + d)
    | none => none

/-- Models `datetime.fromisoformat` from the standard library: timestamps
are modelled as integers, so a parsable timestamp string is an integer
numeral; any other string fails to parse (Python raises `ValueError`). -/
def fromisoformat (s : String) : Option Int :=
  match s.data with
  | [] => none
  | cs => (parseNatAux cs 0).map Int.ofNat

/-- Models `s.replace("Z", "+00:00")` from the standard library: every
occurrence of the single-character pattern `Z` is replaced. -/
def replaceZ (s : String) : String :=
  String.mk (s.data.foldr
    (fun c acc =>
      if c = 'Z' then '+' :: '0' :: '0' :: ':' :: '0' :: '0' :: acc else c :: acc) [])

/-- Models `str.endswith` from the standard library. -/
def endswith (s suffix : String) : Bool :=
  suffix.data.isSuffixOf s.data

namespace JSONLogParser

/-- The canonical record built by `JSONLogParser._normalize`
(`LogRecord` in `json_log_parser.py`, a `TypedDict` with `total=False`,
so every field may be absent). `timestamp` holds a parsed datetime. -/
structure LogRecord where
  timestamp : Option Int := none
  level : Option JVal := none
  logger : Option JVal := none
  message : Option JVal := none
  module : Option JVal := none
  function : Option JVal := none
  line : Option JVal := none
  exception : Option JVal := none
  extras : Option JVal := none
deriving Repr, DecidableEq

/-- The mutable state of a `JSONLogParser` instance: `self.records` and the
three `Counter` attributes (`self._level_counts`, `self._module_counts`,
`self._func_counts`). -/
structure ParserState where
  records : List LogRecord
  level_counts : List (JVal × Nat)
  module_counts : List (JVal × Nat)
  func_counts : List (JVal × Nat)
deriving Repr, DecidableEq

/-- The state built by `__init__`: empty record list and empty counters. -/
def emptyState : ParserState :=
  { records := [], level_counts := [], module_counts := [], func_counts := [] }

/-- `JSONLogParser.CORE_FIELDS` (from the `ECoreFields` enum). -/
def CORE_FIELDS : List String :=
  ["timestamp", "level", "logger", "message", "module", "function", "line",
   "exception", "extras"]

/-- `JSONLogParser.__init__(file_path)`: raises `ValueError` unless the
path ends with `.json.log`; otherwise creates the empty record list and
the three empty counters. -/
def «__init__» (file_path : String) : Except PyErr ParserState :=
  if ¬ endswith file_path ".json.log" then
    .error .valueError
  else
    .ok emptyState

/-- The attribute names `__init__` assigns on the instance
(`self.file_path`, `self.records`, and the three counters). -/
def initInstanceAttrs : List String :=
  ["file_path", "records", "_level_counts", "_module_counts", "_func_counts"]

/-- The attribute names defined on the class `JSONLogParser` itself
(the class attribute `CORE_FIELDS` and the methods). -/
def classAttrs : List String :=
  ["CORE_FIELDS", "load", "filter_by_level", "filter_by_time", "get_extra",
   "top_messages", "level_counts", "module_counts", "func_counts",
   "to_dataframe", "_normalize", "_record_metrics", "__repr__", "__init__"]

/-- Models Python attribute lookup on a `JSONLogParser` instance: an
attribute resolves if it is in the instance dictionary or on the class. -/
def hasattr (instanceAttrs : List String) (name : String) : Bool :=
  instanceAttrs.contains name || classAttrs.contains name

/-- `JSONLogParser._normalize(raw)`: converts a raw parsed JSON line to a
normalized `LogRecord`.  The timestamp is required and parsed from an
ISO string (`raw["timestamp"].replace("Z", "+00:00")`); every other core
field takes the raw value when present and otherwise defaults to the
empty string (empty mapping for `extras`).  Failure modes mirror the
Python exceptions: non-object raw (`TypeError` from `raw["timestamp"]`),
missing timestamp (`KeyError`), non-string timestamp (`AttributeError`
from `.replace`), unparsable timestamp (`ValueError`). -/
def «_normalize» (raw : JDoc) : Except PyErr LogRecord :=
  match raw with
  | .obj entries =>
    match entries.lookup "timestamp" with
    | none => .error (.keyError "timestamp")
    | some tv =>
      match tv with
      | .scalar (.sstr s) =>
        match fromisoformat (replaceZ s) with
        | none => .error .valueError
        | some ts =>
          .ok {
            timestamp := some ts
            level := some ((entries.lookup "level").getD (.scalar (.sstr "")))
            logger := some ((entries.lookup "logger").getD (.scalar (.sstr "")))
            message := some ((entries.lookup "message").getD (.scalar (.sstr "")))
            module := some ((entries.lookup "module").getD (.scalar (.sstr "")))
            function := some ((entries.lookup "function").getD (.scalar (.sstr "")))
            line := some ((entries.lookup "line").getD (.scalar (.sstr "")))
            exception := some ((entries.lookup "exception").getD (.scalar (.sstr "")))
            extras := some ((entries.lookup "extras").getD (.obj []))
          }
      | _ => .error (.attributeError "replace")
  | _ => .error .typeError

/-- Models `counter[key] += 1` on a `collections.Counter`: increment the
existing entry, or append a new entry with count 1 (dict insertion order). -/
def incr (counter : List (JVal × Nat)) (key : JVal) : List (JVal × Nat) :=
  match counter with
  | [] => [(key, 1)]
  | (k, n) :: rest =>
    if k = key then (k, n + 1) :: rest else (k, n) :: incr rest key

/-- `JSONLogParser._record_metrics(record)`: increments the level, module
and function counters with the record's values.  Each subscript raises
`KeyError` when the field is absent; increments already performed stay in
place (in-place mutation of `self`). -/
def «_record_metrics» (st : ParserState) (record : LogRecord) :
    ParserState × Option PyErr :=
  match record.level with
  | none => (st, some (.keyError "level"))
  | some lv =>
    let st1 := { st with level_counts := incr st.level_counts lv }
    match record.module with
    | none => (st1, some (.keyError "module"))
    | some md =>
      let st2 := { st1 with module_counts := incr st1.module_counts md }
      match record.function with
      | none => (st2, some (.keyError "function"))
      | some fn =>
        ({ st2 with func_counts := incr st2.func_counts fn }, none)

/-- One line of the log file, abstracted by the outcome of `line.strip()`
and `json.loads(line)`: a line whose strip is empty, a line that is not
valid JSON (`json.loads` raises), or a line parsing to a JSON document. -/
inductive FileLine where
  | blank
  | notJson (text : String)
  | jsonLine (doc : JDoc)
deriving Repr, DecidableEq

/-- The loop body of `JSONLogParser.load()`: iterate over the lines of the
file; skip a line whose strip is empty; parse the line (`json.loads`),
normalize it, append the record to `self.records` and record metrics.
There is no exception handling, so the first failing line propagates its
exception; the state mutated so far (earlier records and counters, and
a record appended before `_record_metrics` raises) is kept. -/
def loadLines : ParserState → List FileLine → ParserState × Option PyErr
  | st, [] => (st, none)
  | st, .blank :: rest => loadLines st rest
  | st, .notJson _ :: _ => (st, some .jsonDecodeError)
  | st, .jsonLine raw :: rest =>
    match «_normalize» raw with
    | .error e => (st, some e)
    | .ok record =>
      let stR := { st with records := st.records ++ [record] }
      match «_record_metrics» stR record with
      | (st2, some e) => (st2, some e)
      | (st2, none) => loadLines st2 rest

/-- `JSONLogParser.load()`: opens `self.path` and runs the parse loop.
`__init__` assigns `self.file_path`, not `self.path`, so the attribute
lookup `self.path` is the first thing evaluated; when it fails the file
is never opened and the state is untouched. -/
def load (instanceAttrs : List String) (st : ParserState)
    (file : List FileLine) : ParserState × Option PyErr :=
  if hasattr instanceAttrs "path" then loadLines st file
  else (st, some (.attributeError "path"))

/-- Models Python truthiness of `bound and ts < bound` for an optional
datetime bound: `None` is falsy, a datetime is always truthy. -/
def truthyLt (bound : Option Int) (ts : Int) : Bool :=
  match bound with
  | some b => decide (ts < b)
  | none => false

/-- The predicate `in_range` inside `JSONLogParser.filter_by_time`:
exclude a record with no (falsy) timestamp; exclude when a start date is
given and `ts < start_date`; exclude when an end date is given and
`ts < end_date`; otherwise keep. -/
def in_range (start_date end_date : Option Int) (r : LogRecord) : Bool :=
  match r.timestamp with
  | none => false
  | some ts =>
    if truthyLt start_date ts then false
    else if truthyLt end_date ts then false
    else true

/-- `JSONLogParser.filter_by_time(start_date, end_date)`: the records
satisfying `in_range`, in original order. -/
def filter_by_time (records : List LogRecord)
    (start_date end_date : Option Int) : List LogRecord :=
  records.filter (in_range start_date end_date)

/-- Models `d.get(key, default)` on a dictionary of scalars. -/
def dictGet (entries : List (String × JScalar)) (key : String)
    (default : JScalar) : JScalar :=
  (entries.lookup key).getD default

/-- `JSONLogParser.get_extra(record, key, default)`:
`record.get("extras", {}).get(key, default)`.  When the extras value is
not a mapping the second `.get` raises `AttributeError`. -/
def get_extra (record : LogRecord) (key : String) (default : JScalar) :
    Except PyErr JScalar :=
  match (record.extras).getD (.obj []) with
  | .obj entries => .ok (dictGet entries key default)
  | _ => .error (.attributeError "get")

/-- The message values counted by `top_messages`:
`r[MESSAGE] for r in self.records if MESSAGE in r`. -/
def messages (records : List LogRecord) : List JVal :=
  records.filterMap (fun r => r.message)

/-- The distinct elements of a list in order of first appearance
(the key order of a dict built by repeated insertion). -/
def dedupFirst (xs : List JVal) : List JVal :=
  xs.foldl (fun acc x => if x ∈ acc then acc else acc ++ [x]) []

/-- Models `collections.Counter(iterable).items()`: the distinct elements
in first-appearance order, each paired with its total count. -/
def counterItems (xs : List JVal) : List (JVal × Nat) :=
  (dedupFirst xs).map (fun m => (m, xs.count m))

/-- The sort order of `Counter.most_common`: descending by count. -/
def countGE (a b : JVal × Nat) : Prop := b.2 ≤ a.2

instance : DecidableRel countGE := fun a b => Nat.decLe b.2 a.2

instance : IsTotal (JVal × Nat) countGE := ⟨fun a b => Nat.le_total b.2 a.2⟩

instance : IsTrans (JVal × Nat) countGE :=
  ⟨fun _ _ _ h1 h2 => Nat.le_trans h2 h1⟩

/-- Models `Counter.most_common(n)`: the counter items sorted descending
by count with a stable sort (ties keep first-appearance order), first `n`
entries.  (CPython documents `nlargest` as equivalent to a stable
descending sort followed by `take n`.) -/
def most_common (n : Nat) (items : List (JVal × Nat)) : List (JVal × Nat) :=
  (List.insertionSort countGE items).take n

/-- `JSONLogParser.top_messages(n)`: the `n` most common message values of
the loaded records. -/
def top_messages (records : List LogRecord) (n : Nat) : List (JVal × Nat) :=
  most_common n (counterItems (messages records))

end JSONLogParser

/-- The two failure messages of the handler registry, distinguished by
their text in the source (`KeyError("Handler ... already in handlers")`
for a duplicate registration, `KeyError("Key ... does not exists ...")` /
`KeyError("Cannot remove ...")` for an unknown name). -/
inductive HCError where
  | duplicate (name : String)
  | notFound (name : String)
deriving Repr, DecidableEq

namespace HandlerController

/-- `HandlerController._add_handler(name, handler)`: adds the handler to
the `handlers` dict when the name is free, otherwise raises; the
registry is left unchanged on failure.  The dict is modelled as an
association list with insertion at the end. -/
def «_add_handler» {H : Type} (handlers : List (String × H)) (name : String)
    (handler : H) : Except HCError (List (String × H)) :=
  if (handlers.lookup name).isNone then
    .ok (handlers ++ [(name, handler)])
  else
    .error (.duplicate name)

/-- `HandlerController.get_handler(key)`: the stored handler, or a
not-found `KeyError` when the key is absent. -/
def get_handler {H : Type} (handlers : List (String × H)) (key : String) :
    Except HCError H :=
  match handlers.lookup key with
  | some h => .ok h
  | none => .error (.notFound key)

/-- `HandlerController.remove_handler(name)`: flushes and closes the
stored handler (I/O, not modelled) and deletes the entry; raises a
not-found `KeyError` when the name is absent, leaving the dict
unchanged.  Deletion of the (unique) key is modelled by filtering. -/
def remove_handler {H : Type} (handlers : List (String × H)) (name : String) :
    Except HCError (List (String × H)) :=
  if (handlers.lookup name).isSome then
    .ok (handlers.filter (fun p => p.1 != name))
  else
    .error (.notFound name)

end HandlerController

namespace JSONLogParser

/-- A raw log line that parses and normalizes successfully. -/
def goodRaw : JDoc :=
  .obj [("timestamp", .scalar (.sstr "1")), ("level", .scalar (.sstr "INFO")),
        ("message", .scalar (.sstr "hello")), ("module", .scalar (.sstr "m")),
        ("function", .scalar (.sstr "f"))]

/-- A log file consisting of one valid record line. -/
def oneLineFile : List FileLine := [.jsonLine goodRaw]

/-- A normalized record carrying only a timestamp. -/
def tsRecord (t : Int) : LogRecord := { timestamp := some t }

/-- Records whose messages are `["A","B","A","C","B","A"]`. -/
def exRecords : List LogRecord :=
  [{ message := some (.scalar (.sstr "A")) }, { message := some (.scalar (.sstr "B")) },
   { message := some (.scalar (.sstr "A")) }, { message := some (.scalar (.sstr "C")) },
   { message := some (.scalar (.sstr "B")) }, { message := some (.scalar (.sstr "A")) }]

end JSONLogParser

/-- Looking up a key that an association list does not contain finds the
entry appended at the end. -/
theorem lookup_append_of_lookup_none {H : Type} (hs : List (String × H))
    (name : String) (h : H) (habs : hs.lookup name = none) :
    (hs ++ [(name, h)]).lookup name = some h := by
  induction hs with
  | nil => simp [List.lookup]
  | cons p rest ih =>
    obtain ⟨k, v⟩ := p
    by_cases hk : name = k
    · subst hk
      simp [List.lookup] at habs
    · have hb : (name == k) = false := by simpa using hk
      simp only [List.cons_append, List.lookup, hb] at habs ⊢
      exact ih habs

/-- After filtering out a key, looking it up fails. -/
theorem lookup_filter_self {H : Type} (hs : List (String × H)) (name : String) :
    (hs.filter (fun p => p.1 != name)).lookup name = none := by
  induction hs with
  | nil => rfl
  | cons p rest ih =>
    by_cases hk : p.1 = name
    · simp [List.filter_cons, hk, ih]
    · have hne : (p.1 != name) = true := by simpa using hk
      have hne2 : (name == p.1) = false := by
        simp [beq_eq_false_iff_ne]
        exact fun he => hk he.symm
      simp [List.filter_cons, hne, List.lookup, hne2, ih]

open JSONLogParser HandlerController

/-- C1: the claim says a second `load()` on unchanged file content yields
the same records and counters as a single `load()`.  The loop body of
`load()` appends to `self.records` and increments the counters without
ever clearing them, so loading the same one-line file twice yields two
records and a doubled level counter.  (The parser's own test
`test_top_messages` reloads and asserts replace semantics.) -/
theorem C1_second_load_accumulates :
    (loadLines emptyState oneLineFile).2 = none
  ∧ (loadLines emptyState oneLineFile).1.records.length = 1
  ∧ (loadLines emptyState oneLineFile).1.level_counts
      = [(.scalar (.sstr "INFO"), 1)]
  ∧ (loadLines (loadLines emptyState oneLineFile).1 oneLineFile).2 = none
  ∧ (loadLines (loadLines emptyState oneLineFile).1 oneLineFile).1.records.length = 2
  ∧ (loadLines (loadLines emptyState oneLineFile).1 oneLineFile).1.level_counts
      = [(.scalar (.sstr "INFO"), 2)] := by decide

/-- C2 counterexample: the claim says a line that is not valid JSON is
skipped and the rest of the file is still processed without raising.  On
the file `[blank, not-JSON, valid]` the load raises `JSONDecodeError` at
the second line and the valid third line is never recorded. -/
theorem C2_malformed_line_aborts_load :
    loadLines emptyState [.blank, .notJson "oops", .jsonLine goodRaw]
      = (emptyState, some .jsonDecodeError) := by decide

/-- C2 amended: blank lines are skipped, but a line that is not valid
JSON, or whose normalization fails, makes `load()` raise at that line:
the state reached so far is kept, the remaining lines are not processed,
and no separate count of bad lines exists. -/
theorem C2_line_failures (st : JSONLogParser.ParserState)
    (rest : List FileLine) (text : String) (raw : JDoc) :
    loadLines st (.blank :: rest) = loadLines st rest
  ∧ loadLines st (.notJson text :: rest) = (st, some .jsonDecodeError)
  ∧ (∀ e, «_normalize» raw = .error e →
      loadLines st (.jsonLine raw :: rest) = (st, some e)) := by
  refine ⟨rfl, rfl, ?_⟩
  intro e he
  simp [loadLines, he]

/-- Witness for C2 amended, at concrete inputs. -/
theorem C2_line_failures_witness :
    loadLines emptyState [.blank] = loadLines emptyState []
  ∧ loadLines emptyState [.notJson "oops"] = (emptyState, some .jsonDecodeError)
  ∧ loadLines emptyState [.jsonLine (.scalar .snull)] = (emptyState, some .typeError) :=
  ⟨(C2_line_failures emptyState [] "oops" (.scalar .snull)).1,
   (C2_line_failures emptyState [] "oops" (.scalar .snull)).2.1,
   (C2_line_failures emptyState [] "oops" (.scalar .snull)).2.2 .typeError (by decide)⟩

/-- C3: `__init__` assigns `self.file_path` while `load()` reads
`self.path`; neither the instance attributes set by `__init__` nor the
class attributes contain `path`, so every call of `load()` on a parser
built by `__init__` raises `AttributeError` with the file never opened
and the state untouched. -/
theorem C3_load_raises_attributeError (st : JSONLogParser.ParserState)
    (file : List FileLine) :
    load initInstanceAttrs st file = (st, some (.attributeError "path")) := by
  have h : hasattr initInstanceAttrs "path" = false := by decide
  simp [load, h]

/-- C4: the claim says `filter_by_time` keeps exactly the records with
`start ≤ ts ≤ end`.  The end-bound test in the code is `ts < end_date`
(instead of `ts > end_date`), so with `end = 5` a record at time 0 is
dropped while a record at time 7 is kept; a record at exactly 5 is kept. -/
theorem C4_end_bound_is_inverted :
    filter_by_time [tsRecord 0] none (some 5) = []
  ∧ filter_by_time [tsRecord 5] none (some 5) = [tsRecord 5]
  ∧ filter_by_time [tsRecord 7] none (some 5) = [tsRecord 7] := by decide

/-- C5: registering a free name stores the given handler, a following
`get_handler` returns that same handler, and a second registration under
the same name fails with the duplicate-name `KeyError`, the stored entry
staying in place. -/
theorem C5_add_then_get {H : Type} (handlers : List (String × H))
    (name : String) (h : H) (habs : handlers.lookup name = none) :
    ∃ handlers2,
      «_add_handler» handlers name h = .ok handlers2
      ∧ get_handler handlers2 name = .ok h
      ∧ (∀ h2 : H, «_add_handler» handlers2 name h2 = .error (.duplicate name))
      ∧ handlers2.lookup name = some h := by
  have hl := lookup_append_of_lookup_none handlers name h habs
  refine ⟨handlers ++ [(name, h)], ?_, ?_, ?_, hl⟩
  · simp [«_add_handler», habs]
  · simp [get_handler, hl]
  · intro h2
    simp [«_add_handler», hl]

/-- Witness for C5 at a concrete registry. -/
theorem C5_add_then_get_witness :
    ∃ handlers2,
      «_add_handler» ([] : List (String × Nat)) "main" 7 = .ok handlers2
      ∧ get_handler handlers2 "main" = .ok 7
      ∧ (∀ h2 : Nat, «_add_handler» handlers2 "main" h2 = .error (.duplicate "main"))
      ∧ handlers2.lookup "main" = some 7 :=
  C5_add_then_get [] "main" 7 (by decide)

/-- C6: removing a registered name deletes the entry, so a following
`get_handler` fails with the not-found `KeyError`; removing an unknown
name fails with the not-found `KeyError` and returns no modified
registry. -/
theorem C6_remove_semantics {H : Type} (handlers : List (String × H))
    (name : String) :
    ((handlers.lookup name).isSome = true →
      ∃ handlers2, remove_handler handlers name = .ok handlers2
        ∧ get_handler handlers2 name = .error (.notFound name))
  ∧ (handlers.lookup name = none →
      remove_handler handlers name = .error (.notFound name)) := by
  constructor
  · intro hsome
    refine ⟨handlers.filter (fun p => p.1 != name), ?_, ?_⟩
    · simp [remove_handler, hsome]
    · simp [get_handler, lookup_filter_self]
  · intro hnone
    simp [remove_handler, hnone]

/-- Witness for C6 at concrete registries. -/
theorem C6_remove_semantics_witness :
    (∃ handlers2,
      remove_handler [("json", (7 : Nat))] "json" = .ok handlers2
      ∧ get_handler handlers2 "json" = .error (.notFound "json"))
  ∧ remove_handler ([] : List (String × Nat)) "text" = .error (.notFound "text") :=
  ⟨(C6_remove_semantics [("json", (7 : Nat))] "json").1 (by decide),
   (C6_remove_semantics ([] : List (String × Nat)) "text").2 (by decide)⟩

/-- C9: `get_extra` returns the value stored under the key in the
record's extras mapping when present, and the given default otherwise,
including when the record has no extras entry at all. -/
theorem C9_get_extra (record : JSONLogParser.LogRecord) (key : String)
    (default : JScalar) :
    (record.extras = none → get_extra record key default = .ok default)
  ∧ (∀ entries, record.extras = some (.obj entries) →
      (∀ v, entries.lookup key = some v → get_extra record key default = .ok v)
      ∧ (entries.lookup key = none → get_extra record key default = .ok default)) := by
  constructor
  · intro h
    simp [get_extra, h, dictGet, List.lookup]
  · intro entries h
    constructor
    · intro v hv
      simp [get_extra, h, dictGet, hv]
    · intro h0
      simp [get_extra, h0, h, dictGet]

/-- Witness for C9 at concrete records. -/
theorem C9_get_extra_witness :
    get_extra ({} : JSONLogParser.LogRecord) "k" (.sstr "D") = .ok (.sstr "D")
  ∧ get_extra { extras := some (.obj [("k", .snum 4)]) } "k" .snull = .ok (.snum 4)
  ∧ get_extra { extras := some (.obj [("k", .snum 4)]) } "missing" (.sstr "D")
      = .ok (.sstr "D") :=
  ⟨(C9_get_extra ({} : JSONLogParser.LogRecord) "k" (.sstr "D")).1 rfl,
   ((C9_get_extra { extras := some (.obj [("k", .snum 4)]) } "k" .snull).2
      [("k", .snum 4)] rfl).1 (.snum 4) (by decide),
   ((C9_get_extra { extras := some (.obj [("k", .snum 4)]) } "missing" (.sstr "D")).2
      [("k", .snum 4)] rfl).2 (by decide)⟩

/-- C10: constructing a `JSONLogParser` with a path not ending in
`.json.log` raises `ValueError`; with a conforming path the constructor
yields the empty record list and empty counters. -/
theorem C10_init_path_check (file_path : String) :
    (endswith file_path ".json.log" = false →
      «__init__» file_path = .error .valueError)
  ∧ (endswith file_path ".json.log" = true →
      «__init__» file_path = .ok emptyState) := by
  constructor <;> intro h <;> simp [«__init__», h]

/-- Witness for C10 at concrete paths. -/
theorem C10_init_path_check_witness :
    «__init__» "app.txt" = .error .valueError
  ∧ «__init__» "run.json.log" = .ok emptyState :=
  ⟨(C10_init_path_check "app.txt").1 (by decide),
   (C10_init_path_check "run.json.log").2 (by decide)⟩

/-- C7: for a raw object with a parsable timestamp, `_normalize` yields a
record where each canonical field carries the raw value when present and
otherwise defaults to the empty string, except `extras`, which defaults
to the empty mapping. -/
theorem C7_normalize_field_defaults (entries : List (String × JVal))
    (s : String) (t : Int)
    (hts : entries.lookup "timestamp" = some (.scalar (.sstr s)))
    (hparse : fromisoformat (replaceZ s) = some t) :
    ∃ r : JSONLogParser.LogRecord,
      «_normalize» (.obj entries) = .ok r
      ∧ r.timestamp = some t
      ∧ (∀ v, entries.lookup "level" = some v → r.level = some v)
      ∧ (entries.lookup "level" = none → r.level = some (.scalar (.sstr "")))
      ∧ (∀ v, entries.lookup "logger" = some v → r.logger = some v)
      ∧ (entries.lookup "logger" = none → r.logger = some (.scalar (.sstr "")))
      ∧ (∀ v, entries.lookup "message" = some v → r.message = some v)
      ∧ (entries.lookup "message" = none → r.message = some (.scalar (.sstr "")))
      ∧ (∀ v, entries.lookup "module" = some v → r.module = some v)
      ∧ (entries.lookup "module" = none → r.module = some (.scalar (.sstr "")))
      ∧ (∀ v, entries.lookup "function" = some v → r.function = some v)
      ∧ (entries.lookup "function" = none → r.function = some (.scalar (.sstr "")))
      ∧ (∀ v, entries.lookup "line" = some v → r.line = some v)
      ∧ (entries.lookup "line" = none → r.line = some (.scalar (.sstr "")))
      ∧ (∀ v, entries.lookup "exception" = some v → r.exception = some v)
      ∧ (entries.lookup "exception" = none → r.exception = some (.scalar (.sstr "")))
      ∧ (∀ v, entries.lookup "extras" = some v → r.extras = some v)
      ∧ (entries.lookup "extras" = none → r.extras = some (.obj [])) := by
  have key : ∀ (o : Option JVal) (d : JVal),
      (∀ v, o = some v → some (o.getD d) = some v)
      ∧ (o = none → some (o.getD d) = some d) := by
    intro o d
    constructor
    · intro v hv
      rw [hv]
      rfl
    · intro h0
      rw [h0]
      rfl
  refine ⟨{ timestamp := some t,
            level := some ((entries.lookup "level").getD (.scalar (.sstr ""))),
            logger := some ((entries.lookup "logger").getD (.scalar (.sstr ""))),
            message := some ((entries.lookup "message").getD (.scalar (.sstr ""))),
            module := some ((entries.lookup "module").getD (.scalar (.sstr ""))),
            function := some ((entries.lookup "function").getD (.scalar (.sstr ""))),
            line := some ((entries.lookup "line").getD (.scalar (.sstr ""))),
            exception := some ((entries.lookup "exception").getD (.scalar (.sstr ""))),
            extras := some ((entries.lookup "extras").getD (.obj [])) },
         ?_, rfl,
         (key _ _).1, (key _ _).2, (key _ _).1, (key _ _).2,
         (key _ _).1, (key _ _).2, (key _ _).1, (key _ _).2,
         (key _ _).1, (key _ _).2, (key _ _).1, (key _ _).2,
         (key _ _).1, (key _ _).2, (key _ _).1, (key _ _).2⟩
  simp [«_normalize», hts, hparse]

/-- Witness for C7 at a concrete raw object: `level` present, the other
optional fields absent. -/
theorem C7_normalize_field_defaults_witness :
    ∃ r : JSONLogParser.LogRecord,
      «_normalize» (.obj [("timestamp", .scalar (.sstr "5")),
                          ("level", .scalar (.sstr "INFO"))]) = .ok r
      ∧ r.timestamp = some 5
      ∧ (∀ v, ([("timestamp", JVal.scalar (.sstr "5")),
                ("level", JVal.scalar (.sstr "INFO"))]).lookup "level" = some v →
          r.level = some v)
      ∧ (([("timestamp", JVal.scalar (.sstr "5")),
           ("level", JVal.scalar (.sstr "INFO"))]).lookup "level" = none →
          r.level = some (.scalar (.sstr "")))
      ∧ (∀ v, ([("timestamp", JVal.scalar (.sstr "5")),
                ("level", JVal.scalar (.sstr "INFO"))]).lookup "logger" = some v →
          r.logger = some v)
      ∧ (([("timestamp", JVal.scalar (.sstr "5")),
           ("level", JVal.scalar (.sstr "INFO"))]).lookup "logger" = none →
          r.logger = some (.scalar (.sstr "")))
      ∧ (∀ v, ([("timestamp", JVal.scalar (.sstr "5")),
                ("level", JVal.scalar (.sstr "INFO"))]).lookup "message" = some v →
          r.message = some v)
      ∧ (([("timestamp", JVal.scalar (.sstr "5")),
           ("level", JVal.scalar (.sstr "INFO"))]).lookup "message" = none →
          r.message = some (.scalar (.sstr "")))
      ∧ (∀ v, ([("timestamp", JVal.scalar (.sstr "5")),
                ("level", JVal.scalar (.sstr "INFO"))]).lookup "module" = some v →
          r.module = some v)
      ∧ (([("timestamp", JVal.scalar (.sstr "5")),
           ("level", JVal.scalar (.sstr "INFO"))]).lookup "module" = none →
          r.module = some (.scalar (.sstr "")))
      ∧ (∀ v, ([("timestamp", JVal.scalar (.sstr "5")),
                ("level", JVal.scalar (.sstr "INFO"))]).lookup "function" = some v →
          r.function = some v)
      ∧ (([("timestamp", JVal.scalar (.sstr "5")),
           ("level", JVal.scalar (.sstr "INFO"))]).lookup "function" = none →
          r.function = some (.scalar (.sstr "")))
      ∧ (∀ v, ([("timestamp", JVal.scalar (.sstr "5")),
                ("level", JVal.scalar (.sstr "INFO"))]).lookup "line" = some v →
          r.line = some v)
      ∧ (([("timestamp", JVal.scalar (.sstr "5")),
           ("level", JVal.scalar (.sstr "INFO"))]).lookup "line" = none →
          r.line = some (.scalar (.sstr "")))
      ∧ (∀ v, ([("timestamp", JVal.scalar (.sstr "5")),
                ("level", JVal.scalar (.sstr "INFO"))]).lookup "exception" = some v →
          r.exception = some v)
      ∧ (([("timestamp", JVal.scalar (.sstr "5")),
           ("level", JVal.scalar (.sstr "INFO"))]).lookup "exception" = none →
          r.exception = some (.scalar (.sstr "")))
      ∧ (∀ v, ([("timestamp", JVal.scalar (.sstr "5")),
                ("level", JVal.scalar (.sstr "INFO"))]).lookup "extras" = some v →
          r.extras = some v)
      ∧ (([("timestamp", JVal.scalar (.sstr "5")),
           ("level", JVal.scalar (.sstr "INFO"))]).lookup "extras" = none →
          r.extras = some (.obj [])) :=
  C7_normalize_field_defaults
    [("timestamp", .scalar (.sstr "5")), ("level", .scalar (.sstr "INFO"))]
    "5" 5 (by decide) (by decide)

/-- A stable insertion keeps every already-present entry of a given count
in place and puts the inserted entry, when it has that count, in front of
them (the skipped prefix consists of strictly larger counts). -/
theorem filter_orderedInsert (c : Nat) (x : JVal × Nat)
    (l : List (JVal × Nat)) :
    (List.orderedInsert countGE x l).filter (fun p => p.2 == c)
      = if x.2 == c then x :: l.filter (fun p => p.2 == c)
        else l.filter (fun p => p.2 == c) := by
  induction l with
  | nil =>
    cases hx : (x.2 == c) <;> simp [List.orderedInsert, List.filter, hx]
  | cons y ys ih =>
    by_cases hr : countGE x y
    · simp only [List.orderedInsert]
      rw [if_pos hr]
      cases hx : (x.2 == c) <;> cases hy : (y.2 == c) <;>
        simp [List.filter_cons, hx, hy]
    · simp only [List.orderedInsert]
      rw [if_neg hr]
      have hxy : x.2 < y.2 := Nat.lt_of_not_le hr
      cases hy : (y.2 == c)
      · cases hx : (x.2 == c) <;> simp [List.filter_cons, hy, hx, ih]
      · have hyc : y.2 = c := eq_of_beq hy
        have hxc : (x.2 == c) = false :=
          beq_eq_false_iff_ne.mpr (hyc ▸ Nat.ne_of_lt hxy)
        simp [List.filter_cons, hy, hxc, ih]

/-- The stable descending sort keeps the entries of each given count in
their input order. -/
theorem filter_insertionSort (c : Nat) (l : List (JVal × Nat)) :
    (List.insertionSort countGE l).filter (fun p => p.2 == c)
      = l.filter (fun p => p.2 == c) := by
  induction l with
  | nil => rfl
  | cons x xs ih =>
    simp only [List.insertionSort]
    rw [filter_orderedInsert]
    cases hx : (x.2 == c) <;> simp [List.filter_cons, hx, ih]

/-- Every entry of the modelled `Counter.items()` carries the total count
of its key. -/
theorem counterItems_count (xs : List JVal) :
    ∀ p ∈ counterItems xs, p.2 = xs.count p.1 := by
  intro p hp
  simp only [counterItems, List.mem_map] at hp
  obtain ⟨m, _, rfl⟩ := hp
  rfl

/-- C8: `top_messages n` returns at most `n` pairs; each pair carries the
exact occurrence count of its message; the result is sorted descending by
count; the stable sort keeps entries of equal count in first-appearance
order (the order of the counter built from the records); and on the
messages `["A","B","A","C","B","A"]`, `top_messages 2` is
`[("A", 3), ("B", 2)]`. -/
theorem C8_top_messages_spec (records : List JSONLogParser.LogRecord)
    (n : Nat) :
    (top_messages records n).length ≤ n
  ∧ (∀ p ∈ top_messages records n, p.2 = (messages records).count p.1)
  ∧ List.Sorted (fun a b : JVal × Nat => b.2 ≤ a.2) (top_messages records n)
  ∧ (∀ c : Nat,
      (List.insertionSort countGE (counterItems (messages records))).filter
          (fun p => p.2 == c)
        = (counterItems (messages records)).filter (fun p => p.2 == c))
  ∧ top_messages exRecords 2
      = [(.scalar (.sstr "A"), 3), (.scalar (.sstr "B"), 2)] := by
  refine ⟨?_, ?_, ?_, fun c => filter_insertionSort c _, by decide⟩
  · exact List.length_take_le n _
  · intro p hp
    have hp1 : p ∈ List.insertionSort countGE (counterItems (messages records)) :=
      List.take_subset n _ hp
    have hp2 : p ∈ counterItems (messages records) :=
      (List.perm_insertionSort countGE _).mem_iff.mp hp1
    exact counterItems_count _ p hp2
  · have hs : List.Sorted countGE
        (List.insertionSort countGE (counterItems (messages records))) :=
      List.sorted_insertionSort countGE _
    exact hs.sublist (List.take_sublist n _)

/-- Witness for C8 at the example records: length bound and exact count
of message `"A"`. -/
theorem C8_top_messages_spec_witness :
    (top_messages exRecords 2).length ≤ 2
  ∧ (3 : Nat) = (messages exRecords).count (JVal.scalar (.sstr "A")) :=
  ⟨(C8_top_messages_spec exRecords 2).1,
   (C8_top_messages_spec exRecords 2).2.1 (JVal.scalar (.sstr "A"), 3) (by decide)⟩
